import Mathlib

/-!
Verification development for the LMS dashboard repository
(`advance_lms.py`, `analytics.py`): a shallow embedding of the data
loader, the filter engine, pagination, session-state handling and the
lead-prediction module, together with theorems settling the spec claims.
-/

namespace LMS


/-- A data row of the lead table: an association list from column name to
the string-cast cell value (mirroring `df[col].astype(str)` access). -/
abbrev Row := List (String × String)

/-- Lookup of the string-cast cell of row `r` in column `c`. -/
def cellOf (r : Row) (c : String) : String :=
  ((r.find? (fun p => p.1 == c)).map Prod.snd).getD ""

/-- Embedding of `apply_filters` (analytics.py): iterate over the
selection mapping and, for each column with a non-empty selected value
list, keep only the rows whose string-cast cell is in the list. -/
def apply_filters (rows : List Row) (selections : List (String × List String)) : List Row :=
  selections.foldl
    (fun acc p =>
      if !p.2.isEmpty then acc.filter (fun r => p.2.contains (cellOf r p.1)) else acc)
    rows

/-- A row matches a selection mapping when, for every entry, the entry is
empty (no filter on that column) or the row's string-cast cell in that
column belongs to the selected value list. -/
def matchesAll (selections : List (String × List String)) (r : Row) : Bool :=
  selections.all (fun p => p.2.isEmpty || p.2.contains (cellOf r p.1))

/-- A cell of the loaded table: a text value, a parsed date/time value,
the not-a-time sentinel produced by date coercion, or the missing-value
marker produced by the spreadsheet reader. -/
inductive Cell where
  | str (s : String)
  | date (d : Nat)
  | nat
  | na
deriving DecidableEq

/-- A raw spreadsheet cell as read from the file: a present value
(rendered in its string form) or a missing value. -/
abbrev RawCell := Option String

/-- Embedding of the date coercion (`errors="coerce"`) on one cell,
parametrized by the date parser: a missing or unparseable value becomes
the not-a-time sentinel instead of raising. -/
def coerceDate (parse : String → Option Nat) : RawCell → Cell
  | none => Cell.nat
  | some s =>
    match parse s with
    | some d => Cell.date d
    | none => Cell.nat

/-- A raw cell of a non-date column as held after reading the file. -/
def rawAsCell : RawCell → Cell
  | none => Cell.na
  | some s => Cell.str s

/-- Embedding of the missing-value fill on one cell: both missing
markers (the missing-value marker and the not-a-time sentinel) are
replaced by the empty string. -/
def fillnaCell : Cell → Cell
  | Cell.na => Cell.str ""
  | Cell.nat => Cell.str ""
  | c => c

/-- Lower-casing of one ASCII character. -/
def lowerChar (c : Char) : Char :=
  if 65 ≤ c.toNat ∧ c.toNat ≤ 90 then Char.ofNat (c.toNat + 32) else c

/-- Test whether the first character list starts the second one. -/
def listStarts : List Char → List Char → Bool
  | [], _ => true
  | _ :: _, [] => false
  | p :: ps, s :: ss => p == s && listStarts ps ss

/-- Test whether the first character list occurs inside the second. -/
def hasSubstr (pat : List Char) : List Char → Bool
  | [] => listStarts pat []
  | s :: ss => listStarts pat (s :: ss) || hasSubstr pat ss

/-- The column-name test for date columns: the lower-cased name contains
the substring "date". -/
def isDateCol (name : String) : Bool :=
  hasSubstr "date".toList (name.toList.map lowerChar)

/-- Embedding of one column pass of `load_data`: a date-named column
goes through date coercion, every column then goes through the
missing-value fill. -/
def load_column (isDate : Bool) (parse : String → Option Nat)
    (cells : List RawCell) : List Cell :=
  (cells.map (fun c => if isDate then coerceDate parse c else rawAsCell c)).map fillnaCell

/-- A named column of raw spreadsheet cells. -/
structure Column where
  name : String
  cells : List RawCell
deriving DecidableEq

/-- Embedding of `load_data`: every column is loaded through
`load_column`, with date coercion applied exactly to the columns whose
name contains "date" (case-insensitive). -/
def load_data (parse : String → Option Nat) (cols : List Column) :
    List (String × List Cell) :=
  cols.map (fun c => (c.name, load_column (isDateCol c.name) parse c.cells))

/-- Split a character list on a separator character. -/
def splitOnChar (c : Char) : List Char → List (List Char)
  | [] => [[]]
  | x :: xs =>
    let r := splitOnChar c xs
    if x == c then [] :: r
    else
      match r with
      | [] => [[x]]
      | h :: t => (x :: h) :: t

/-- Read a non-empty all-digit character list as a natural number. -/
def digitsToNum (l : List Char) : Option Nat :=
  if !l.isEmpty && l.all Char.isDigit then
    some (l.foldl (fun a c => a * 10 + (c.toNat - 48)) 0)
  else none

/-- A concrete date parser for basic ISO `YYYY-MM-DD` strings, used to
instantiate the parser-parametric loader theorems on concrete data. -/
def parseIsoDate (s : String) : Option Nat :=
  match splitOnChar (Char.ofNat 45) s.toList with
  | [y, m, d] =>
    match digitsToNum y, digitsToNum m, digitsToNum d with
    | some yn, some mn, some dn =>
      if 1 ≤ mn ∧ mn ≤ 12 ∧ 1 ≤ dn ∧ dn ≤ 31 then
        some (yn * 10000 + mn * 100 + dn)
      else none
    | _, _, _ => none
  | _ => none

/-- A loaded cell that is a parsed date or the not-a-time sentinel. -/
def isDateOrNaT : Cell → Bool
  | Cell.date _ => true
  | Cell.nat => true
  | _ => false

/-- A loaded cell that is a parsed date or the empty string. -/
def isDateOrEmpty : Cell → Bool
  | Cell.date _ => true
  | Cell.str s => s == ""
  | _ => false

/-- A loaded cell that still holds an absent/undefined marker. -/
def isAbsent : Cell → Bool
  | Cell.na => true
  | Cell.nat => true
  | _ => false

/-- The process-wide session state of the cascading dashboard: the five
resettable keys of `reset_keys`, plus the per-widget values that the
rendering framework keeps in the same session store under the widget
keys (the per-column search text boxes, multi-value selectors,
select-all checkboxes and date-range pickers). -/
structure SessionState where
  filtered_df : List Row
  selected_values : List (String × List String)
  date_ranges : List (String × (Nat × Nat))
  page_number : Nat
  select_all_state : List (String × Bool)
  search_widgets : List (String × String)
  multi_widgets : List (String × List String)
  select_all_widgets : List (String × Bool)
  date_widgets : List (String × (Nat × Nat))
deriving DecidableEq

/-- The session state of a freshly started session: full table as the
filtered view, no selections, no widget values, page 0. -/
def initState (df : List Row) : SessionState :=
  { filtered_df := df
    selected_values := []
    date_ranges := []
    page_number := 0
    select_all_state := []
    search_widgets := []
    multi_widgets := []
    select_all_widgets := []
    date_widgets := [] }

/-- Embedding of the Clear Filters handler: assign each of the five
`reset_keys` its initial value and trigger a rerun. The handler touches
no other session entry; in particular the widget-keyed values survive
(an interrupted run skips the framework's widget-state cleanup). -/
def clearFilters (df : List Row) (s : SessionState) : SessionState :=
  { s with
    filtered_df := df
    selected_values := []
    date_ranges := []
    page_number := 0
    select_all_state := [] }

/-- The fixed page size of the cascading dashboard table. -/
def PAGE_SIZE : Nat := 1000

/-- Embedding of the rendered table page: the filtered view is reversed
and the slice [page * 1000, page * 1000 + 1000) of the reversed list is
displayed. -/
def pageSlice {α : Type} (l : List α) (p : Nat) : List α :=
  (l.reverse.drop (p * PAGE_SIZE)).take PAGE_SIZE

/-- Embedding of the Next Page button handler: the page number advances
only when the current slice end lies strictly before the filtered row
count. -/
def nextPageClick (p : Nat) (total : Nat) : Nat :=
  if p * PAGE_SIZE + PAGE_SIZE < total then p + 1 else p

/-- Embedding of the Previous Page button handler: the page number
decreases only when it is positive. -/
def prevPageClick (p : Nat) : Nat :=
  if p > 0 then p - 1 else p

/-- The dashboard interaction state that drives the rendered table: the
resolved per-column filter selections and the Pagination Cursor. -/
structure DashState where
  selections : List (String × List String)
  page : Nat
deriving DecidableEq

/-- One operator interaction on the cascading dashboard. -/
inductive DashEvent where
  | setFilter (selections : List (String × List String))
  | nextPage
  | prevPage
  | clear

/-- The Filtered View of one run: the full table restricted by the
resolved selections, column by column. -/
def filteredView (df : List Row) (s : DashState) : List Row :=
  apply_filters df s.selections

/-- Embedding of one interaction step. The filter loop only rewrites the
selection state — it never writes the page number; the page number is
written exclusively by the two pagination buttons and Clear Filters. -/
def dashStep (df : List Row) (s : DashState) : DashEvent → DashState
  | DashEvent.setFilter sel => { s with selections := sel }
  | DashEvent.nextPage =>
      { s with page := nextPageClick s.page (filteredView df s).length }
  | DashEvent.prevPage => { s with page := prevPageClick s.page }
  | DashEvent.clear => { selections := [], page := 0 }

/-- The rendered output of one run: the displayed page slice, the
caption's 1-based start row, the caption's end row, and the total
filtered row count. -/
def renderRun (df : List Row) (s : DashState) : List Row × Nat × Nat × Nat :=
  (pageSlice (filteredView df s) s.page,
   s.page * PAGE_SIZE + 1,
   min (s.page * PAGE_SIZE + PAGE_SIZE) (filteredView df s).length,
   (filteredView df s).length)

/-- A concrete 1001-row table: 1000 leads with Course B and one lead
with Course A. -/
def sampleTable : List Row :=
  List.replicate 1000 [("Course", "B")] ++ [[("Course", "A")]]

/-- The state reached by paging forward once on the unfiltered sample
table and then selecting Course = {A}. -/
def shrunkState : DashState :=
  dashStep sampleTable
    (dashStep sampleTable ⟨[], 0⟩ DashEvent.nextPage)
    (DashEvent.setFilter [("Course", ["A"])])

/-- The four prediction feature columns, in their fixed order. -/
def pred_cols : List String := ["Course", "State", "Mode", "Intake Year"]

/-- The prediction target column. -/
def target_col : String := "Number_Course"

/-- A training row: an association list from column name to a cell that
is either a present string value or missing. -/
abbrev TRow := List (String × Option String)

/-- Cell access on a training row. -/
def tcell (r : TRow) (c : String) : Option String :=
  ((r.find? (fun p => p.1 == c)).map Prod.snd).getD none

/-- Take the leading run of decimal digits of a character list,
returning the digits and the remaining characters. -/
def takeDigits : List Char → List Char × List Char
  | [] => ([], [])
  | c :: cs =>
    if c.isDigit then
      let r := takeDigits cs
      (c :: r.1, r.2)
    else ([], c :: cs)

/-- Numeric value of a digit character list. -/
def digitsVal (l : List Char) : Nat :=
  l.foldl (fun a c => a * 10 + (c.toNat - 48)) 0

/-- Embedding of the leading-numeric-token extraction on the target
field: scan for the first digit, read the maximal digit run, then an
optional decimal point followed by a further digit run, and return the
value as a rational (the float coercion never fails on such a token). -/
def extractNum : List Char → Option ℚ
  | [] => none
  | c :: cs =>
    if c.isDigit then
      let ip := takeDigits (c :: cs)
      match ip.2 with
      | '.' :: rest =>
        let fp := takeDigits rest
        some ((digitsVal ip.1 : ℚ) + (digitsVal fp.1 : ℚ) / (10 : ℚ) ^ fp.1.length)
      | _ => some (digitsVal ip.1 : ℚ)
    else extractNum cs

/-- Present-value test over the four feature columns and the target. -/
def allPresent (r : TRow) : Bool :=
  (pred_cols ++ [target_col]).all (fun c => (tcell r c).isSome)

/-- Embedding of the first cleaning step of `train_regressor`: drop the
rows with a missing value in any of the five training columns. -/
def dropnaRows (rows : List TRow) : List TRow := rows.filter allPresent

/-- The numeric target of a row: the leading numeric token of the
target cell, when the cell is present and a token exists. -/
def targetValue (r : TRow) : Option ℚ :=
  (tcell r target_col).bind (fun s => extractNum s.toList)

/-- Embedding of the full cleaning pipeline of `train_regressor`: drop
rows with missing training columns, then drop rows whose target yields
no numeric token. -/
def cleanedRows (rows : List TRow) : List TRow :=
  (dropnaRows rows).filter (fun r => (targetValue r).isSome)

/-- Strict lexicographic comparison of character lists. -/
def strLtB : List Char → List Char → Bool
  | [], [] => false
  | [], _ :: _ => true
  | _ :: _, [] => false
  | a :: as, b :: bs => decide (a.toNat < b.toNat) || (a == b && strLtB as bs)

/-- Insert a string into a sorted duplicate-free list of strings. -/
def insertClass (v : String) : List String → List String
  | [] => [v]
  | x :: xs =>
    if v == x then x :: xs
    else if strLtB v.toList x.toList then v :: x :: xs
    else x :: insertClass v xs

/-- Embedding of the label-encoder fit: the class vocabulary is the
sorted set of distinct values of the fitted column. -/
def fitClasses (xs : List String) : List String := xs.foldr insertClass []

/-- Embedding of the label-encoder transform on one value: the index of
the value in the class vocabulary, empty for a value that was never
seen when fitting (the encoder raises in that case). -/
def leTransform (classes : List String) (v : String) : Option Nat :=
  classes.findIdx? (fun x => x == v)

/-- The per-column encoder vocabulary fitted by `train_regressor`: the
classes of the column's values over the cleaned training rows. -/
def encoderVocab (rows : List TRow) (c : String) : List String :=
  fitClasses ((cleanedRows rows).map (fun r => (tcell r c).getD ""))

/-- Embedding of `train_regressor`: training yields nothing when no
rows survive cleaning, and otherwise the cleaned rows (from which the
fitted encoders derive). -/
def train_regressor (rows : List TRow) : Option (List TRow) :=
  if cleanedRows rows = [] then none else some (cleanedRows rows)

/-- The prediction section of the page renders only when training
yielded a model. -/
def predictionUIShown (m : Option (List TRow)) : Bool := m.isSome

/-- An error raised inside the Predict handler and not caught by it. -/
inductive PredError where
  | unseenLabel (col : String) (v : String)
  | featureMismatch
  | columnsMismatch
deriving DecidableEq

/-- One row of the prediction results table. -/
structure PredRow where
  vals : List String
  pred : ℚ
deriving DecidableEq

/-- The rendered outcome of a successful Predict action. -/
structure PredOutcome where
  displayed : List PredRow
  exportCols : List String
  exportRows : List PredRow
deriving DecidableEq

/-- Embedding of the iterator product: the Cartesian product of a list
of value lists, rightmost factor varying fastest; the product of zero
lists is the singleton empty combination. -/
def cartProd {α : Type} : List (List α) → List (List α)
  | [] => [[]]
  | l :: ls => (l.map (fun a => (cartProd ls).map (fun c => a :: c))).flatten

/-- Left-to-right effectful map over a fallible step: the first error
propagates, as an uncaught exception does. -/
def exceptMapM {α β ε : Type} (f : α → Except ε β) : List α → Except ε (List β)
  | [] => Except.ok []
  | x :: xs =>
    match f x with
    | Except.error e => Except.error e
    | Except.ok y =>
      match exceptMapM f xs with
      | Except.error e => Except.error e
      | Except.ok ys => Except.ok (y :: ys)

/-- The populated prediction dimensions of an operator query, in
pred_cols order. -/
def populatedCols (entry : String → List String) : List String :=
  pred_cols.filter (fun c => !(entry c).isEmpty)

/-- The queried combinations: the Cartesian product of the populated
dimensions' value lists only. -/
def combosOf (entry : String → List String) : List (List String) :=
  cartProd ((populatedCols entry).map entry)

/-- Embedding of the encoded-query-row construction: the combination is
zipped positionally against the full pred_cols order and each value is
transformed through the zipped column's encoder. -/
def encodeCombo (vocab : String → List String) (combo : List String) :
    Except PredError (List Nat) :=
  exceptMapM
    (fun p =>
      match leTransform (vocab p.1) p.2 with
      | some i => Except.ok i
      | none => Except.error (PredError.unseenLabel p.1 p.2))
    (pred_cols.zip combo)

/-- Embedding of the regressor's predict call: the fitted model expects
exactly four features per row and raises otherwise. -/
def predictEncoded (model : List Nat → ℚ) (rows : List (List Nat)) :
    Except PredError (List ℚ) :=
  if rows.all (fun r => r.length == 4) then Except.ok (rows.map model)
  else Except.error PredError.featureMismatch

/-- Embedding of the results-table construction over the four fixed
column names: it raises when a combination's length differs from the
number of column names. -/
def mkResults (combos : List (List String)) (preds : List ℚ) :
    Except PredError (List PredRow) :=
  if combos.all (fun c => c.length == pred_cols.length) then
    Except.ok ((combos.zip preds).map (fun p => ⟨p.1, p.2⟩))
  else Except.error PredError.columnsMismatch

/-- Insert a result row into a list sorted by predicted count
descending, keeping it sorted. -/
def insertDesc (r : PredRow) : List PredRow → List PredRow
  | [] => [r]
  | x :: xs => if x.pred ≤ r.pred then r :: x :: xs else x :: insertDesc r xs

/-- The sort of the displayed results: by predicted count, descending. -/
def sortByPred (rows : List PredRow) : List PredRow :=
  rows.foldr insertDesc []

/-- Embedding of the Predict Future Leads handler: nothing is rendered
when the combination list is empty; otherwise encoding, predicting and
building the results either raises (uncaught) or renders an outcome
whose displayed table is sorted descending while the export keeps the
original combination order. -/
def predictHandler (vocab : String → List String) (model : List Nat → ℚ)
    (entry : String → List String) : Option (Except PredError PredOutcome) :=
  let combos := combosOf entry
  if combos.isEmpty then none
  else
    some
      (match exceptMapM (encodeCombo vocab) combos with
       | Except.error e => Except.error e
       | Except.ok encoded =>
         match predictEncoded model encoded with
         | Except.error e => Except.error e
         | Except.ok preds =>
           match mkResults combos preds with
           | Except.error e => Except.error e
           | Except.ok results =>
             Except.ok
               { displayed := sortByPred results
                 exportCols := pred_cols ++ ["Predicted Leads"]
                 exportRows := results })

/-- The handler outcome is an uncaught error shown to the operator. -/
def isErrorOutcome : Option (Except PredError PredOutcome) → Bool
  | some (Except.error _) => true
  | _ => false

/-- The export columns of the handler outcome, when an export exists. -/
def exportColsOf : Option (Except PredError PredOutcome) → Option (List String)
  | some (Except.ok o) => some o.exportCols
  | _ => none

instance {ε α : Type} [DecidableEq ε] [DecidableEq α] : DecidableEq (Except ε α) := fun x y =>
  match x, y with
  | Except.error a, Except.error b =>
    if h : a = b then isTrue (by rw [h])
    else isFalse (by intro hc; injection hc with h2; exact h h2)
  | Except.ok a, Except.ok b =>
    if h : a = b then isTrue (by rw [h])
    else isFalse (by intro hc; injection hc with h2; exact h h2)
  | Except.error a, Except.ok b => isFalse (fun hc => Except.noConfusion hc)
  | Except.ok a, Except.error b => isFalse (fun hc => Except.noConfusion hc)

/-- A one-row training table whose target has no digits. -/
def sampleNoTargetRows : List TRow :=
  [[("Course", some "A"), ("State", some "S"), ("Mode", some "M"),
    ("Intake Year", some "2024"), ("Number_Course", some "no data")]]

/-- A one-row training table with a well-formed target. -/
def sampleTrainRows : List TRow :=
  [[("Course", some "A"), ("State", some "S"), ("Mode", some "M"),
    ("Intake Year", some "2024"), ("Number_Course", some "12 enrolled")]]

/-- A concrete encoder vocabulary shared by all four columns. -/
def sampleVocab : String → List String := fun _ => ["2024", "A", "B", "M", "X"]

/-- A concrete stand-in regression function: the first encoded feature. -/
def sampleModel : List Nat → ℚ := fun enc => ((enc.headD 0 : Nat) : ℚ)

/-- A query populating only the Course and State dimensions. -/
def sampleEntryPartial : String → List String := fun c =>
  if c == "Course" then ["A"] else if c == "State" then ["X"] else []

/-- A query populating all four dimensions, with an unseen State. -/
def sampleEntryUnseen : String → List String := fun c =>
  if c == "Course" then ["A"]
  else if c == "State" then ["ZZ"]
  else if c == "Mode" then ["M"]
  else if c == "Intake Year" then ["2024"] else []

/-- A query populating all four dimensions with seen values only. -/
def sampleEntryFull : String → List String := fun c =>
  if c == "Course" then ["A", "B"]
  else if c == "State" then ["X"]
  else if c == "Mode" then ["M"]
  else if c == "Intake Year" then ["2024"] else []

/-- The outcome of the Predict action on `sampleEntryFull`. -/
def samplePredOutcome : PredOutcome :=
  { displayed := [⟨["B", "X", "M", "2024"], 2⟩, ⟨["A", "X", "M", "2024"], 1⟩]
    exportCols := ["Course", "State", "Mode", "Intake Year", "Predicted Leads"]
    exportRows := [⟨["A", "X", "M", "2024"], 1⟩, ⟨["B", "X", "M", "2024"], 2⟩] }

theorem apply_filters_eq_filter (rows : List Row)
    (selections : List (String × List String)) :
    apply_filters rows selections = rows.filter (matchesAll selections) := by
  induction selections generalizing rows with
  | nil =>
    rw [show matchesAll [] = fun _ => true from rfl, List.filter_true]
    rfl
  | cons p sel ih =>
    have step : apply_filters rows (p :: sel) =
        apply_filters
          (if !p.2.isEmpty then rows.filter (fun r => p.2.contains (cellOf r p.1)) else rows)
          sel := by
      simp only [apply_filters, List.foldl_cons]
    rw [step, ih]
    by_cases h : p.2.isEmpty
    · simp only [h, Bool.not_true, Bool.false_eq_true, if_neg, ih]
      apply List.filter_congr
      intro r _
      simp [matchesAll, List.all_cons, h]
    · simp only [h, Bool.not_false, if_pos, List.filter_filter]
      apply List.filter_congr
      intro r _
      simp [matchesAll, List.all_cons, h, Bool.and_comm]

/-- C7: for every table and every per-column selection of values, the
Filtered View is exactly the rows whose string-cast value in each
selected column is a member of that column's selected set (conjunction
across columns); concretely, for rows [(A,X),(A,Y),(B,X)] with
Course={A} and State={X} selected, the result is exactly [(A,X)]. -/
theorem C7_filter_conjunction :
    (∀ (rows : List Row) (selections : List (String × List String)),
        apply_filters rows selections = rows.filter (matchesAll selections))
    ∧ apply_filters
        [[("Course", "A"), ("State", "X")],
         [("Course", "A"), ("State", "Y")],
         [("Course", "B"), ("State", "X")]]
        [("Course", ["A"]), ("State", ["X"])]
      = [[("Course", "A"), ("State", "X")]] := by
  refine ⟨apply_filters_eq_filter, ?_⟩
  decide

theorem fillnaCell_not_absent (c : Cell) : isAbsent (fillnaCell c) = false := by
  cases c <;> rfl

theorem fillna_coerce_dateOrEmpty (parse : String → Option Nat) (rc : RawCell) :
    isDateOrEmpty (fillnaCell (coerceDate parse rc)) = true := by
  cases rc with
  | none => rfl
  | some s =>
    cases h : parse s <;> simp [coerceDate, h, fillnaCell, isDateOrEmpty]

theorem load_column_missing_to_empty (isDate : Bool) (parse : String → Option Nat) :
    ∀ cells : List RawCell,
      ((cells.zip (load_column isDate parse cells)).all
        (fun p => p.1.isSome || p.2 == Cell.str "")) = true
  | [] => rfl
  | c :: cs => by
    have ih := load_column_missing_to_empty isDate parse cs
    cases c with
    | none =>
      cases isDate <;>
        simpa [load_column, List.zip_cons_cons, rawAsCell, coerceDate, fillnaCell] using ih
    | some s =>
      cases isDate <;>
        simpa [load_column, List.zip_cons_cons] using ih

/-- C6 (amended): after loading, every value of a column whose name
contains "date" (case-insensitive) is either a parsed date/time or the
empty string (the not-a-time sentinel is itself normalized away by the
missing-value fill), no cell of any column holds an absent/undefined
marker, and every missing raw cell is loaded as the empty string. -/
theorem C6_loader_normalization (parse : String → Option Nat) (cols : List Column) :
    (∀ pr ∈ load_data parse cols, ∀ c ∈ pr.2, isAbsent c = false)
    ∧ (∀ pr ∈ load_data parse cols, isDateCol pr.1 = true →
        ∀ c ∈ pr.2, isDateOrEmpty c = true)
    ∧ (∀ col ∈ cols,
        ((col.cells.zip (load_column (isDateCol col.name) parse col.cells)).all
          (fun p => p.1.isSome || p.2 == Cell.str "")) = true) := by
  refine ⟨?_, ?_, ?_⟩
  · intro pr hpr c hc
    obtain ⟨col, _, rfl⟩ := List.mem_map.mp hpr
    simp only [load_column, List.mem_map] at hc
    obtain ⟨b, _, rfl⟩ := hc
    exact fillnaCell_not_absent b
  · intro pr hpr hdate c hc
    obtain ⟨col, _, rfl⟩ := List.mem_map.mp hpr
    simp only at hdate
    simp only [load_column, hdate, if_pos, List.map_map, List.mem_map] at hc
    obtain ⟨rc, _, rfl⟩ := hc
    exact fillna_coerce_dateOrEmpty parse rc
  · intro col _
    exact load_column_missing_to_empty (isDateCol col.name) parse col.cells

/-- C6 witness: the amended loader properties, instantiated at the ISO
date parser and a concrete two-column table. -/
theorem C6_loader_normalization_witness :
    isAbsent (Cell.date 20240102) = false ∧ isDateOrEmpty (Cell.date 20240102) = true :=
  ⟨(C6_loader_normalization parseIsoDate
      [⟨"Start Date", [some "2024-01-02", some "garbage", none]⟩,
       ⟨"Course", [some "A", none]⟩]).1
      ("Start Date", [Cell.date 20240102, Cell.str "", Cell.str ""]) (by decide)
      (Cell.date 20240102) (by decide),
   ((C6_loader_normalization parseIsoDate
      [⟨"Start Date", [some "2024-01-02", some "garbage", none]⟩,
       ⟨"Course", [some "A", none]⟩]).2.1
      ("Start Date", [Cell.date 20240102, Cell.str "", Cell.str ""]) (by decide)
      (by decide) (Cell.date 20240102) (by decide))⟩

/-- C6 counterexample: loading a date-named column holding the
unparseable text "garbage" yields the empty string, which is neither a
valid date/time nor the not-a-time sentinel — so the loaded value is
not "either a valid date/time or the no-value sentinel" as claimed. -/
theorem C6_counterexample :
    load_data parseIsoDate [⟨"Start Date", [some "garbage"]⟩]
      = [("Start Date", [Cell.str ""])]
    ∧ isDateCol "Start Date" = true
    ∧ isDateOrNaT (Cell.str "") = false := by
  refine ⟨by decide, by decide, rfl⟩

/-- C4 (amended): Clear Filters resets the five session keys — full
table as the Filtered View, no per-column value selections, no date
ranges, no select-all flags, Pagination Cursor at page 0 — and is
idempotent, but it leaves every widget-held value (search terms,
multiselect contents, checkbox and date-picker states) unchanged, so it
does not return the session to its initial state whenever any widget
holds a value. -/
theorem C4_clear_filters_resets_keys (df : List Row) (s : SessionState) :
    (clearFilters df s).filtered_df = df
    ∧ (clearFilters df s).selected_values = []
    ∧ (clearFilters df s).date_ranges = []
    ∧ (clearFilters df s).page_number = 0
    ∧ (clearFilters df s).select_all_state = []
    ∧ (clearFilters df s).search_widgets = s.search_widgets
    ∧ (clearFilters df s).multi_widgets = s.multi_widgets
    ∧ (clearFilters df s).select_all_widgets = s.select_all_widgets
    ∧ (clearFilters df s).date_widgets = s.date_widgets
    ∧ clearFilters df (clearFilters df s) = clearFilters df s := by
  refine ⟨rfl, rfl, rfl, rfl, rfl, rfl, rfl, rfl, rfl, rfl⟩

/-- C4 counterexample: in a session whose Course search box holds "ab",
Clear Filters does not return the session to its initial state — the
search term survives the reset, because the handler assigns only the
five `reset_keys` and never touches the widget-keyed entries. -/
theorem C4_counterexample :
    clearFilters [[("Course", "A")]]
        { initState [[("Course", "A")]] with
          search_widgets := [("Course", "ab")], page_number := 3 }
      ≠ initState [[("Course", "A")]]
    ∧ (clearFilters [[("Course", "A")]]
        { initState [[("Course", "A")]] with
          search_widgets := [("Course", "ab")], page_number := 3 }).search_widgets
      = [("Course", "ab")] := by
  exact ⟨by decide, rfl⟩

/-- C8: with 2500 filtered rows, pages 0, 1 and 2 of the reversed
rendering hold rows 1–1000, 1001–2000 and 2001–2500 respectively (their
concatenation is exactly the reversed filtered view and their lengths
are 1000, 1000 and 500); Next Page is a no-op whenever no later page
exists (in particular on page 2) and Previous Page is a no-op on
page 0. -/
theorem C8_pagination_boundaries {α : Type} (l : List α) (h : l.length = 2500) :
    pageSlice l 0 ++ pageSlice l 1 ++ pageSlice l 2 = l.reverse
    ∧ (pageSlice l 0).length = 1000
    ∧ (pageSlice l 1).length = 1000
    ∧ (pageSlice l 2).length = 500
    ∧ nextPageClick 2 l.length = 2
    ∧ prevPageClick 0 = 0
    ∧ (∀ p total, ¬ p * PAGE_SIZE + PAGE_SIZE < total → nextPageClick p total = p)
    ∧ (∀ p, prevPageClick (p + 1) = p) := by
  have hr : l.reverse.length = 2500 := by simp [h]
  have e0 : pageSlice l 0 = l.reverse.take 1000 := by
    simp [pageSlice, PAGE_SIZE]
  have e1 : pageSlice l 1 = (l.reverse.drop 1000).take 1000 := by
    simp [pageSlice, PAGE_SIZE]
  have e2 : pageSlice l 2 = l.reverse.drop 2000 := by
    simp only [pageSlice, PAGE_SIZE]
    norm_num
    omega
  refine ⟨?_, ?_, ?_, ?_, ?_, rfl, ?_, ?_⟩
  · rw [e0, e1, e2, ← List.take_add]
    norm_num
  · rw [e0, List.length_take, hr]; omega
  · rw [e1, List.length_take, List.length_drop, hr]; omega
  · rw [e2, List.length_drop, hr]
  · rw [h]; rfl
  · intro p total hc
    simp [nextPageClick, hc]
  · intro p
    simp [prevPageClick]

/-- C8 witness: the pagination boundary facts instantiated at a
concrete 2500-row filtered view. -/
theorem C8_pagination_boundaries_witness :
    (pageSlice (List.replicate 2500 (0 : Nat)) 0).length = 1000
    ∧ (pageSlice (List.replicate 2500 (0 : Nat)) 2).length = 500
    ∧ nextPageClick 2 (List.replicate 2500 (0 : Nat)).length = 2 :=
  ⟨(C8_pagination_boundaries (List.replicate 2500 0) (by rw [List.length_replicate])).2.1,
   (C8_pagination_boundaries (List.replicate 2500 0) (by rw [List.length_replicate])).2.2.2.1,
   (C8_pagination_boundaries (List.replicate 2500 0) (by rw [List.length_replicate])).2.2.2.2.1⟩

theorem filter_replicate {α : Type} (p : α → Bool) (n : Nat) (a : α) :
    (List.replicate n a).filter p = if p a then List.replicate n a else [] := by
  induction n with
  | zero => simp
  | succ n ih => by_cases h : p a <;> simp [List.replicate_succ, List.filter_cons, h, ih]

/-- C10: a filter-change interaction leaves the Pagination Cursor
unchanged (the filter loop never writes the page number), so after
paging to page 1 of a 1001-row view and then shrinking the Filtered
View to a single row, the rendered page is empty and the caption's
1-based start row (1001) exceeds the total filtered row count (1). -/
theorem C10_filter_change_keeps_page :
    (∀ (df : List Row) (s : DashState) (sel : List (String × List String)),
        (dashStep df s (DashEvent.setFilter sel)).page = s.page)
    ∧ shrunkState.page = 1
    ∧ (renderRun sampleTable shrunkState).1 = []
    ∧ (renderRun sampleTable shrunkState).2.1 = 1001
    ∧ (renderRun sampleTable shrunkState).2.2.2 = 1
    ∧ (renderRun sampleTable shrunkState).2.2.2 < (renderRun sampleTable shrunkState).2.1 := by
  have hfv0 : filteredView sampleTable ⟨[], 0⟩ = sampleTable := rfl
  have hlen : sampleTable.length = 1001 := by
    rw [show sampleTable = List.replicate 1000 [("Course", "B")] ++ [[("Course", "A")]] from rfl,
      List.length_append, List.length_replicate]
    rfl
  have hs1 : dashStep sampleTable ⟨[], 0⟩ DashEvent.nextPage = ⟨[], 1⟩ := by
    simp only [dashStep, hfv0, hlen]
    norm_num [nextPageClick, PAGE_SIZE]
  have hs2 : shrunkState = ⟨[("Course", ["A"])], 1⟩ := by
    rw [shrunkState, hs1]
    rfl
  have hfv2 : filteredView sampleTable ⟨[("Course", ["A"])], 1⟩ = [[("Course", "A")]] := by
    rw [filteredView, apply_filters_eq_filter]
    rw [show sampleTable = List.replicate 1000 [("Course", "B")] ++ [[("Course", "A")]] from rfl]
    rw [List.filter_append, filter_replicate]
    norm_num [matchesAll, cellOf]
    decide
  refine ⟨fun df s sel => rfl, ?_, ?_, ?_, ?_, ?_⟩
  · rw [hs2]
  · rw [hs2, renderRun]
    simp only [hfv2]
    rfl
  · rw [hs2]
    rfl
  · rw [hs2, renderRun]
    simp only [hfv2]
    rfl
  · rw [hs2, renderRun]
    simp only [hfv2]
    norm_num [PAGE_SIZE]

theorem mem_insertClass (v a : String) :
    ∀ l : List String, a ∈ insertClass v l ↔ a = v ∨ a ∈ l
  | [] => by simp [insertClass]
  | x :: xs => by
    simp only [insertClass]
    split_ifs with h1 h2
    · have hvx : v = x := by simpa using h1
      subst hvx
      simp only [List.mem_cons]
      tauto
    · simp only [List.mem_cons]
    · simp only [List.mem_cons, mem_insertClass v a xs]
      tauto

theorem mem_fitClasses (a : String) :
    ∀ xs : List String, a ∈ fitClasses xs ↔ a ∈ xs
  | [] => by simp [fitClasses]
  | x :: xs => by
    simp only [fitClasses, List.foldr_cons]
    rw [mem_insertClass]
    have : List.foldr insertClass [] xs = fitClasses xs := rfl
    rw [this, mem_fitClasses a xs]
    simp only [List.mem_cons]

theorem mem_cartProd_cons {α : Type} {combo : List α} {l : List α} {ls : List (List α)} :
    combo ∈ cartProd (l :: ls) ↔ ∃ x ∈ l, ∃ c ∈ cartProd ls, combo = x :: c := by
  simp only [cartProd]
  rw [List.mem_flatten]
  constructor
  · rintro ⟨sub, hsub, hmem⟩
    rw [List.mem_map] at hsub
    obtain ⟨x, hx, rfl⟩ := hsub
    rw [List.mem_map] at hmem
    obtain ⟨c, hc, rfl⟩ := hmem
    exact ⟨x, hx, c, hc, rfl⟩
  · rintro ⟨x, hx, c, hc, rfl⟩
    exact ⟨(cartProd ls).map (fun c => x :: c), List.mem_map_of_mem _ hx,
      List.mem_map_of_mem _ hc⟩

theorem cartProd_ne_nil {α : Type} :
    ∀ ls : List (List α), (∀ l ∈ ls, l ≠ []) → cartProd ls ≠ []
  | [], _ => by simp [cartProd]
  | l :: ls, h => by
    have hl : l ≠ [] := h l (List.mem_cons_self l ls)
    have hrest : cartProd ls ≠ [] :=
      cartProd_ne_nil ls (fun x hx => h x (List.mem_cons_of_mem _ hx))
    obtain ⟨a, ha⟩ := List.exists_mem_of_ne_nil l hl
    obtain ⟨c, hc⟩ := List.exists_mem_of_ne_nil _ hrest
    intro hemp
    have hmem : (a :: c) ∈ cartProd (l :: ls) := mem_cartProd_cons.mpr ⟨a, ha, c, hc, rfl⟩
    rw [hemp] at hmem
    exact absurd hmem (List.not_mem_nil _)

theorem cartProd_length {α : Type} :
    ∀ (ls : List (List α)) (combo : List α), combo ∈ cartProd ls → combo.length = ls.length
  | [], combo => by
    intro h
    simp only [cartProd, List.mem_singleton] at h
    subst h
    rfl
  | l :: ls, combo => by
    intro h
    obtain ⟨x, _, c, hc, rfl⟩ := mem_cartProd_cons.mp h
    simp [cartProd_length ls c hc]

theorem cartProd_zip_cover :
    ∀ (cols : List String) (entry : String → List String),
      (∀ c ∈ cols, entry c ≠ []) →
      ∀ c ∈ cols, ∀ v ∈ entry c,
        ∃ combo ∈ cartProd (cols.map entry), (c, v) ∈ cols.zip combo
  | [], _ => by
    intro _ c hc
    exact absurd hc (List.not_mem_nil c)
  | c0 :: cols, entry => by
    intro hne c hc v hv
    rcases List.mem_cons.mp hc with hceq | hctail
    · subst hceq
      have hrest : cartProd (cols.map entry) ≠ [] := by
        apply cartProd_ne_nil
        intro l hl
        rw [List.mem_map] at hl
        obtain ⟨x, hx, rfl⟩ := hl
        exact hne x (List.mem_cons_of_mem _ hx)
      obtain ⟨ctail, hct⟩ := List.exists_mem_of_ne_nil _ hrest
      refine ⟨v :: ctail, mem_cartProd_cons.mpr ⟨v, hv, ctail, hct, rfl⟩, ?_⟩
      rw [List.zip_cons_cons]
      exact List.mem_cons_self _ _
    · have hne2 : ∀ x ∈ cols, entry x ≠ [] := fun x hx => hne x (List.mem_cons_of_mem _ hx)
      obtain ⟨ctail, hct, hpair⟩ := cartProd_zip_cover cols entry hne2 c hctail v hv
      have h0 : entry c0 ≠ [] := hne c0 (List.mem_cons_self _ _)
      obtain ⟨a, ha⟩ := List.exists_mem_of_ne_nil _ h0
      refine ⟨a :: ctail, mem_cartProd_cons.mpr ⟨a, ha, ctail, hct, rfl⟩, ?_⟩
      rw [List.zip_cons_cons]
      exact List.mem_cons_of_mem _ hpair

theorem exceptMapM_ok_length {α β ε : Type} (f : α → Except ε β) :
    ∀ (l : List α) (ys : List β), exceptMapM f l = Except.ok ys → ys.length = l.length
  | [], ys => by
    intro h
    simp only [exceptMapM, Except.ok.injEq] at h
    subst h
    rfl
  | x :: xs, ys => by
    intro h
    cases hfx : f x with
    | error e => simp [exceptMapM, hfx] at h
    | ok y =>
      cases hrest : exceptMapM f xs with
      | error e => simp [exceptMapM, hfx, hrest] at h
      | ok ys2 =>
        simp only [exceptMapM, hfx, hrest, Except.ok.injEq] at h
        subst h
        simp [exceptMapM_ok_length f xs ys2 hrest]

theorem exceptMapM_ok_forall {α β ε : Type} (f : α → Except ε β) :
    ∀ (l : List α) (ys : List β), exceptMapM f l = Except.ok ys →
      ∀ x ∈ l, ∃ y, f x = Except.ok y
  | [], ys => by
    intro _ x hx
    exact absurd hx (List.not_mem_nil x)
  | x0 :: xs, ys => by
    intro h x hx
    cases hfx : f x0 with
    | error e => simp [exceptMapM, hfx] at h
    | ok y0 =>
      cases hrest : exceptMapM f xs with
      | error e => simp [exceptMapM, hfx, hrest] at h
      | ok ys2 =>
        rcases List.mem_cons.mp hx with rfl | hxs
        · exact ⟨y0, hfx⟩
        · exact exceptMapM_ok_forall f xs ys2 hrest x hxs

theorem exceptMapM_ok_mem {α β ε : Type} (f : α → Except ε β) :
    ∀ (l : List α) (ys : List β), exceptMapM f l = Except.ok ys →
      ∀ y ∈ ys, ∃ x ∈ l, f x = Except.ok y
  | [], ys => by
    intro h y hy
    simp only [exceptMapM, Except.ok.injEq] at h
    subst h
    exact absurd hy (List.not_mem_nil y)
  | x0 :: xs, ys => by
    intro h y hy
    cases hfx : f x0 with
    | error e => simp [exceptMapM, hfx] at h
    | ok y0 =>
      cases hrest : exceptMapM f xs with
      | error e => simp [exceptMapM, hfx, hrest] at h
      | ok ys2 =>
        simp only [exceptMapM, hfx, hrest, Except.ok.injEq] at h
        subst h
        rcases List.mem_cons.mp hy with rfl | hys
        · exact ⟨x0, List.mem_cons_self _ _, hfx⟩
        · obtain ⟨x, hxmem, hxf⟩ := exceptMapM_ok_mem f xs ys2 hrest y hys
          exact ⟨x, List.mem_cons_of_mem _ hxmem, hxf⟩

theorem mem_insertDesc (r b : PredRow) :
    ∀ l : List PredRow, b ∈ insertDesc r l ↔ b = r ∨ b ∈ l
  | [] => by simp [insertDesc]
  | x :: xs => by
    simp only [insertDesc]
    split_ifs with hc
    · simp only [List.mem_cons]
    · simp only [List.mem_cons, mem_insertDesc r b xs]
      tauto

theorem pairwise_insertDesc (r : PredRow) (l : List PredRow)
    (h : List.Pairwise (fun a b : PredRow => b.pred ≤ a.pred) l) :
    List.Pairwise (fun a b : PredRow => b.pred ≤ a.pred) (insertDesc r l) := by
  induction l with
  | nil => simp [insertDesc]
  | cons x xs ih =>
    rw [List.pairwise_cons] at h
    obtain ⟨hx, hxs⟩ := h
    by_cases hc : x.pred ≤ r.pred
    · rw [insertDesc, if_pos hc, List.pairwise_cons]
      refine ⟨?_, List.pairwise_cons.mpr ⟨hx, hxs⟩⟩
      intro b hb
      rcases List.mem_cons.mp hb with rfl | hb2
      · exact hc
      · exact le_trans (hx b hb2) hc
    · rw [insertDesc, if_neg hc, List.pairwise_cons]
      refine ⟨?_, ih hxs⟩
      intro b hb
      rcases (mem_insertDesc r b xs).mp hb with rfl | hb2
      · exact le_of_not_le hc
      · exact hx b hb2

theorem insertDesc_perm (r : PredRow) :
    ∀ l : List PredRow, List.Perm (insertDesc r l) (r :: l)
  | [] => by simp [insertDesc]
  | x :: xs => by
    by_cases hc : x.pred ≤ r.pred
    · rw [insertDesc, if_pos hc]
    · rw [insertDesc, if_neg hc]
      exact List.Perm.trans ((insertDesc_perm r xs).cons x) (List.Perm.swap r x xs)

theorem sortByPred_perm : ∀ l : List PredRow, List.Perm (sortByPred l) l
  | [] => by simp [sortByPred]
  | x :: xs => by
    have step : sortByPred (x :: xs) = insertDesc x (sortByPred xs) := rfl
    rw [step]
    exact List.Perm.trans (insertDesc_perm x (sortByPred xs)) ((sortByPred_perm xs).cons x)

theorem sortByPred_sorted :
    ∀ l : List PredRow, List.Pairwise (fun a b : PredRow => b.pred ≤ a.pred) (sortByPred l)
  | [] => by simp [sortByPred]
  | x :: xs => by
    have step : sortByPred (x :: xs) = insertDesc x (sortByPred xs) := rfl
    rw [step]
    exact pairwise_insertDesc x (sortByPred xs) (sortByPred_sorted xs)

theorem predictHandler_ok_shape (vocab : String → List String)
    (model : List Nat → ℚ) (entry : String → List String) (out : PredOutcome)
    (h : predictHandler vocab model entry = some (Except.ok out)) :
    out.displayed = sortByPred out.exportRows
    ∧ out.exportCols = pred_cols ++ ["Predicted Leads"] := by
  by_cases hq : (combosOf entry).isEmpty = true
  · simp [predictHandler, hq] at h
  · simp only [predictHandler] at h
    rw [if_neg hq, Option.some.injEq] at h
    cases hm : exceptMapM (encodeCombo vocab) (combosOf entry) with
    | error e =>
      simp only [hm] at h
      exact Except.noConfusion h
    | ok encoded =>
      simp only [hm] at h
      cases hp : predictEncoded model encoded with
      | error e =>
        simp only [hp] at h
        exact Except.noConfusion h
      | ok preds =>
        simp only [hp] at h
        cases hr : mkResults (combosOf entry) preds with
        | error e =>
          simp only [hr] at h
          exact Except.noConfusion h
        | ok results =>
          simp only [hr, Except.ok.injEq] at h
          rw [← h]
          exact ⟨rfl, rfl⟩

/-- C5: model training keeps exactly the rows with all of Course,
State, Mode, Intake Year and Number_Course present, then keeps exactly
those whose target yields a leading numeric token ("12 enrolled"
extracts to 12.0, "no data" yields no token and its row is dropped);
when no rows survive the cleanup, training returns no model and the
prediction section of the page is suppressed. -/
theorem C5_training_cleanup (rows : List TRow) :
    (∀ r, r ∈ dropnaRows rows ↔ r ∈ rows ∧ allPresent r = true)
    ∧ (∀ r, r ∈ cleanedRows rows ↔
        r ∈ rows ∧ allPresent r = true ∧ (targetValue r).isSome = true)
    ∧ extractNum "12 enrolled".toList = some 12
    ∧ extractNum "no data".toList = none
    ∧ (cleanedRows rows = [] →
        train_regressor rows = none
        ∧ predictionUIShown (train_regressor rows) = false) := by
  refine ⟨?_, ?_, by decide, by decide, ?_⟩
  · intro r
    simp [dropnaRows, List.mem_filter]
  · intro r
    simp only [cleanedRows, dropnaRows, List.mem_filter, and_assoc]
  · intro h
    rw [train_regressor, if_pos h]
    exact ⟨rfl, rfl⟩

/-- C5 witness: on a table whose only row has target "no data", the
cleanup leaves nothing, training yields no model and the prediction
section is suppressed. -/
theorem C5_training_cleanup_witness :
    train_regressor sampleNoTargetRows = none
    ∧ predictionUIShown (train_regressor sampleNoTargetRows) = false :=
  (C5_training_cleanup sampleNoTargetRows).2.2.2.2 (by decide)

/-- C2: with no dimension populated, the combination list built by the
handler is not empty — the nullary iterator product is the singleton
empty combination — so the guarded no-op branch is not taken and the
Predict action instead raises an uncaught feature-count error from the
regressor, for every fitted encoder set and model. -/
theorem C2_empty_query_crashes (vocab : String → List String) (model : List Nat → ℚ) :
    combosOf (fun _ => []) = [[]]
    ∧ predictHandler vocab model (fun _ => [])
        = some (Except.error PredError.featureMismatch) :=
  ⟨rfl, rfl⟩

/-- C9: each feature encoder's vocabulary holds exactly the values
present in that column of the cleaned training rows, and a Predict
query that includes, in a fully populated query, a value absent from
its column's encoder vocabulary always ends in an uncaught error shown
to the operator. -/
theorem C9_encoders_fit_on_training_values :
    (∀ (rows : List TRow) (c v : String),
        v ∈ encoderVocab rows c ↔
          v ∈ (cleanedRows rows).map (fun r => (tcell r c).getD ""))
    ∧ (∀ (vocab : String → List String) (model : List Nat → ℚ)
          (entry : String → List String) (c v : String),
        populatedCols entry = pred_cols →
        c ∈ pred_cols → v ∈ entry c →
        leTransform (vocab c) v = none →
        isErrorOutcome (predictHandler vocab model entry) = true) := by
  constructor
  · intro rows c v
    exact mem_fitClasses v _
  · intro vocab model entry c v hpop hc hv hnone
    have hne : ∀ x ∈ pred_cols, entry x ≠ [] := by
      intro x hx
      have hmem : x ∈ populatedCols entry := by rw [hpop]; exact hx
      have hp := (List.mem_filter.mp hmem).2
      intro hnil
      rw [hnil] at hp
      simp at hp
    have hcomb : combosOf entry ≠ [] := by
      rw [combosOf, hpop]
      apply cartProd_ne_nil
      intro l hl
      rw [List.mem_map] at hl
      obtain ⟨x, hx, rfl⟩ := hl
      exact hne x hx
    obtain ⟨combo, hcombo, hpair⟩ := cartProd_zip_cover pred_cols entry hne c hc v hv
    have hcombo2 : combo ∈ combosOf entry := by rw [combosOf, hpop]; exact hcombo
    have hemp : (combosOf entry).isEmpty = false := by
      cases hq : combosOf entry with
      | nil => exact absurd hq hcomb
      | cons hd tl => rfl
    simp only [predictHandler]
    rw [if_neg (by rw [hemp]; exact Bool.false_ne_true)]
    cases hm : exceptMapM (encodeCombo vocab) (combosOf entry) with
    | error e => simp [isErrorOutcome]
    | ok encoded =>
      exfalso
      obtain ⟨enc, henc⟩ := exceptMapM_ok_forall _ _ _ hm combo hcombo2
      rw [encodeCombo] at henc
      obtain ⟨i, hi⟩ := exceptMapM_ok_forall _ _ _ henc (c, v) hpair
      rw [hnone] at hi
      exact Except.noConfusion hi

/-- C9 witness: the vocabulary fact at a concrete training table, and
the uncaught error at a concrete fully populated query whose State
value "ZZ" is absent from the encoder vocabulary. -/
theorem C9_encoders_fit_on_training_values_witness :
    ("A" ∈ encoderVocab sampleTrainRows "Course" ↔
      "A" ∈ (cleanedRows sampleTrainRows).map (fun r => (tcell r "Course").getD ""))
    ∧ isErrorOutcome (predictHandler sampleVocab sampleModel sampleEntryUnseen) = true :=
  ⟨C9_encoders_fit_on_training_values.1 sampleTrainRows "Course" "A",
   C9_encoders_fit_on_training_values.2 sampleVocab sampleModel sampleEntryUnseen
     "State" "ZZ" (by decide) (by decide) (by decide) (by decide)⟩

/-- C1 (amended): the queried combinations are the Cartesian product of
only the populated dimensions' value lists, and building the encoded
query rows zips each combination positionally against the full
pred_cols order (a combination value is looked up in the encoder of the
column it is zipped with); but whenever a nonempty strict subset of the
four dimensions is populated, the Predict action always ends in an
uncaught error before any result table exists, so no predicted_leads
export with only the populated dimensions' columns is ever produced — a
successful outcome always carries all four pred_cols plus "Predicted
Leads" as its export columns. -/
theorem C1_partial_dimension_query (vocab : String → List String)
    (model : List Nat → ℚ) (entry : String → List String) :
    (∀ combo ∈ combosOf entry, combo.length = (populatedCols entry).length)
    ∧ (∀ combo enc, encodeCombo vocab combo = Except.ok enc →
        ∀ p ∈ pred_cols.zip combo, ∃ i, leTransform (vocab p.1) p.2 = some i)
    ∧ (populatedCols entry ≠ [] → (populatedCols entry).length < 4 →
        isErrorOutcome (predictHandler vocab model entry) = true)
    ∧ (∀ out, predictHandler vocab model entry = some (Except.ok out) →
        out.exportCols = pred_cols ++ ["Predicted Leads"]) := by
  refine ⟨?_, ?_, ?_, ?_⟩
  · intro combo hc
    rw [combosOf] at hc
    have := cartProd_length _ _ hc
    rwa [List.length_map] at this
  · intro combo enc henc p hp
    rw [encodeCombo] at henc
    obtain ⟨y, hy⟩ := exceptMapM_ok_forall _ _ _ henc p hp
    cases hlt : leTransform (vocab p.1) p.2 with
    | none =>
      rw [hlt] at hy
      exact Except.noConfusion hy
    | some i => exact ⟨i, rfl⟩
  · intro hne0 hlt4
    have hne : ∀ l ∈ (populatedCols entry).map entry, l ≠ [] := by
      intro l hl
      rw [List.mem_map] at hl
      obtain ⟨x, hx, rfl⟩ := hl
      have hp := (List.mem_filter.mp hx).2
      intro hnil
      rw [hnil] at hp
      simp at hp
    have hcomb : combosOf entry ≠ [] := by
      rw [combosOf]
      exact cartProd_ne_nil _ hne
    have hemp : (combosOf entry).isEmpty = false := by
      cases hq : combosOf entry with
      | nil => exact absurd hq hcomb
      | cons hd tl => rfl
    simp only [predictHandler]
    rw [if_neg (by rw [hemp]; exact Bool.false_ne_true)]
    cases hm : exceptMapM (encodeCombo vocab) (combosOf entry) with
    | error e => simp [isErrorOutcome]
    | ok encoded =>
      have hlen : encoded.length = (combosOf entry).length :=
        exceptMapM_ok_length _ _ _ hm
      have hennil : encoded ≠ [] := by
        intro h0
        rw [h0] at hlen
        exact hcomb (List.length_eq_zero.mp hlen.symm)
      obtain ⟨enc0, henc0⟩ := List.exists_mem_of_ne_nil _ hennil
      obtain ⟨combo0, hcombo0, hcenc⟩ := exceptMapM_ok_mem _ _ _ hm enc0 henc0
      rw [encodeCombo] at hcenc
      have hl1 : enc0.length = (pred_cols.zip combo0).length :=
        exceptMapM_ok_length _ _ _ hcenc
      have hl2 : (pred_cols.zip combo0).length = min 4 combo0.length := by
        rw [List.length_zip, inf_eq_min, show pred_cols.length = 4 from rfl]
      have hcl : combo0.length = (populatedCols entry).length := by
        rw [combosOf] at hcombo0
        have := cartProd_length _ _ hcombo0
        rwa [List.length_map] at this
      have hne4 : enc0.length ≠ 4 := by
        rw [hl1, hl2, hcl, Nat.min_eq_right (Nat.le_of_lt hlt4)]
        omega
      have hall : (encoded.all (fun r => r.length == 4)) = false := by
        cases hb : encoded.all (fun r => r.length == 4) with
        | false => rfl
        | true =>
          have hb2 := List.all_eq_true.mp hb enc0 henc0
          simp only [beq_iff_eq] at hb2
          exact absurd hb2 hne4
      have hp : predictEncoded model encoded = Except.error PredError.featureMismatch := by
        simp only [predictEncoded]
        rw [if_neg (by rw [hall]; exact Bool.false_ne_true)]
      simp [hp, isErrorOutcome]
  · intro out h
    exact (predictHandler_ok_shape vocab model entry out h).2

/-- C1 witness: the amended facts at a concrete Course-and-State-only
query: its single combination pairs the two values positionally, and
the Predict action ends in an uncaught error. -/
theorem C1_partial_dimension_query_witness :
    (["A", "X"] : List String).length = (populatedCols sampleEntryPartial).length
    ∧ isErrorOutcome (predictHandler sampleVocab sampleModel sampleEntryPartial) = true :=
  ⟨(C1_partial_dimension_query sampleVocab sampleModel sampleEntryPartial).1
      ["A", "X"] (by decide),
   (C1_partial_dimension_query sampleVocab sampleModel sampleEntryPartial).2.2.1
      (by decide) (by decide)⟩

/-- C1 counterexample: with only Course and State populated, the
Predict action raises the regressor's feature-count error, so no
predicted_leads export exists at all — in particular none with columns
Course, State, Predicted Leads as the claim states. -/
theorem C1_counterexample :
    predictHandler sampleVocab sampleModel sampleEntryPartial
      = some (Except.error PredError.featureMismatch)
    ∧ exportColsOf (predictHandler sampleVocab sampleModel sampleEntryPartial) = none
    ∧ (none : Option (List String)) ≠ some ["Course", "State", "Predicted Leads"] := by
  refine ⟨by decide, by decide, by decide⟩

/-- C3 (amended): whenever the Predict action succeeds, the displayed
table is the result set sorted by predicted count descending (a
permutation of the results, pairwise non-increasing in the predicted
value), while the downloadable export keeps the results in original
combination order, unsorted. -/
theorem C3_display_sorted_export_unsorted (vocab : String → List String)
    (model : List Nat → ℚ) (entry : String → List String) (out : PredOutcome)
    (h : predictHandler vocab model entry = some (Except.ok out)) :
    out.displayed = sortByPred out.exportRows
    ∧ List.Perm out.displayed out.exportRows
    ∧ List.Pairwise (fun a b : PredRow => b.pred ≤ a.pred) out.displayed := by
  obtain ⟨hd, _⟩ := predictHandler_ok_shape vocab model entry out h
  refine ⟨hd, ?_, ?_⟩
  · rw [hd]
    exact sortByPred_perm out.exportRows
  · rw [hd]
    exact sortByPred_sorted out.exportRows

/-- C3 witness: the amended facts at a concrete successful query with
two combinations. -/
theorem C3_display_sorted_export_unsorted_witness :
    samplePredOutcome.displayed = sortByPred samplePredOutcome.exportRows
    ∧ List.Perm samplePredOutcome.displayed samplePredOutcome.exportRows
    ∧ List.Pairwise (fun a b : PredRow => b.pred ≤ a.pred) samplePredOutcome.displayed :=
  C3_display_sorted_export_unsorted sampleVocab sampleModel sampleEntryFull
    samplePredOutcome (by decide)

/-- C3 counterexample: at a concrete successful query the export holds
predicted counts 1 then 2 in combination order — not sorted descending
— while the displayed table is sorted; so the export of the original
claim is not sorted by predicted count descending. -/
theorem C3_counterexample :
    predictHandler sampleVocab sampleModel sampleEntryFull
      = some (Except.ok samplePredOutcome)
    ∧ samplePredOutcome.exportRows.map PredRow.pred = [1, 2]
    ∧ ¬ List.Pairwise (fun a b : PredRow => b.pred ≤ a.pred)
        samplePredOutcome.exportRows
    ∧ samplePredOutcome.exportRows ≠ samplePredOutcome.displayed := by
  refine ⟨by decide, by decide, by decide, by decide⟩

end LMS
